import Mathlib

/-!
Shallow embedding of `pkg/rtc/mediatracksubscriptions.go` (livekit-server):
the per-track subscription fan-out engine.  Pure Lean functions model the
Go methods; the engine struct becomes an explicit state record, Go maps
become association lists, and the possibly-nil Go map
`maxSubscriberNodeQuality` becomes an `Option` (a `none` models the Go nil
map, whose entry assignment is a runtime panic).  Calls into external
collaborators (peer connection, telemetry, timers) are modelled by
environment records describing their outcomes, and the upcall to the
publisher is returned as trace data instead of being performed.
-/

namespace LiveKit

/-- `livekit.VideoQuality` protobuf enum.  Numeric wire values (used by the
Go comparisons `>` and `<=` in the source): LOW = 0, MEDIUM = 1, HIGH = 2,
OFF = 3.  Note OFF is numerically the largest value, which is why the source
special-cases it everywhere. -/
inductive VideoQuality where
  | LOW
  | MEDIUM
  | HIGH
  | OFF
deriving DecidableEq, Repr, Fintype

/-- The numeric protobuf value of a `VideoQuality`. -/
def VideoQuality.toNat : VideoQuality → Nat
  | .LOW => 0
  | .MEDIUM => 1
  | .HIGH => 2
  | .OFF => 3

/-- Go numeric comparison `a <= b` on `livekit.VideoQuality` values. -/
def VideoQuality.leNum (a b : VideoQuality) : Bool :=
  a.toNat ≤ b.toNat

/-- Rank of a quality in the spec's total order OFF < LOW < MEDIUM < HIGH. -/
def VideoQuality.specRank : VideoQuality → Nat
  | .OFF => 0
  | .LOW => 1
  | .MEDIUM => 2
  | .HIGH => 3

/-- Binary maximum under the spec's total order OFF < LOW < MEDIUM < HIGH. -/
def VideoQuality.specMax (a b : VideoQuality) : VideoQuality :=
  if a.specRank ≤ b.specRank then b else a

/-- Spec-order comparison `a ≤ b` under OFF < LOW < MEDIUM < HIGH. -/
def VideoQuality.specLe (a b : VideoQuality) : Bool :=
  a.specRank ≤ b.specRank

/-- `livekit.TrackType`. -/
inductive TrackType where
  | AUDIO
  | VIDEO
  | DATA
deriving DecidableEq, Repr

/-- Subscriber participant id (`livekit.ParticipantID`, a string). -/
abbrev PID := String

/-- One entry of the outgoing descriptor (`livekit.SubscribedQuality`). -/
structure SubscribedQuality where
  quality : VideoQuality
  enabled : Bool
deriving DecidableEq, Repr

/-- The payload of the publisher upcall `onSubscribedMaxQualityChange`:
the descriptor and the new maximum subscribed quality. -/
abbrev Upcall := List SubscribedQuality × VideoQuality

/-- Go map lookup `v, ok := m[k]` on an association-list model. -/
def lookupQ {K V : Type} [DecidableEq K] : List (K × V) → K → Option V
  | [], _ => none
  | kv :: rest, k => if kv.1 = k then some kv.2 else lookupQ rest k

/-- Go map assignment `m[k] = v` on an association-list model
(update in place, or append a fresh key). -/
def insertQ {K V : Type} [DecidableEq K] : List (K × V) → K → V → List (K × V)
  | [], k, v => [(k, v)]
  | kv :: rest, k, v => if kv.1 = k then (k, v) :: rest else kv :: insertQ rest k v

/-- Go map `delete(m, k)` on an association-list model. -/
def deleteQ {K V : Type} [DecidableEq K] : List (K × V) → K → List (K × V)
  | [], _ => []
  | kv :: rest, k => if kv.1 = k then deleteQ rest k else kv :: deleteQ rest k

/-- Reading (iterating or indexing) a possibly-nil Go map: a nil map reads
as empty. -/
def goMapRead (m : Option (List (String × VideoQuality))) :
    List (String × VideoQuality) :=
  m.getD []

/-- Go `delete` on a possibly-nil map: a no-op on a nil map. -/
def goMapDelete (m : Option (List (String × VideoQuality))) (k : String) :
    Option (List (String × VideoQuality)) :=
  match m with
  | none => none
  | some l => some (deleteQ l k)

/-- `types.SubscribedTrack` as far as this engine stores it: the registry
value pairing the subscriber id with its forwarder (`DownTrack`), the
forwarder identified by an opaque handle. -/
structure SubscribedTrack where
  subscriberID : PID
  downTrack : Nat
deriving DecidableEq, Repr

/-- The state of `MediaTrackSubscriptions`: the track kind (from
`params.MediaTrack.Kind()`), the `subscribedTracks` registry, both
desired-quality maps, the current published max, whether the publisher
registered the `onSubscribedMaxQualityChange` upcall, and the initial
quality timer slot. -/
structure MediaTrackSubscriptions where
  kind : TrackType
  subscribedTracks : List (PID × SubscribedTrack)
  maxSubscriberQuality : List (PID × VideoQuality)
  maxSubscriberNodeQuality : Option (List (String × VideoQuality))
  maxSubscribedQuality : VideoQuality
  hasOnSubscribedMaxQualityChange : Bool
  maxQualityTimer : Bool
deriving DecidableEq, Repr

/-- `NewMediaTrackSubscriptions`: only `maxSubscriberQuality` is allocated;
`maxSubscriberNodeQuality` is left as the Go nil map, and
`maxSubscribedQuality` is left at the enum zero value, which is LOW (= 0),
not OFF (= 3). -/
def NewMediaTrackSubscriptions (kind : TrackType) : MediaTrackSubscriptions :=
  { kind := kind
    subscribedTracks := []
    maxSubscriberQuality := []
    maxSubscriberNodeQuality := none
    maxSubscribedQuality := VideoQuality.LOW
    hasOnSubscribedMaxQualityChange := false
    maxQualityTimer := false }

/-- `OnSubscribedMaxQualityChange`: the publisher registers the upcall. -/
def OnSubscribedMaxQualityChange (t : MediaTrackSubscriptions) :
    MediaTrackSubscriptions :=
  { t with hasOnSubscribedMaxQualityChange := true }

/-- `IsSubscriber`: registry lookup. -/
def IsSubscriber (t : MediaTrackSubscriptions) (subID : PID) : Bool :=
  (lookupQ t.subscribedTracks subID).isSome

/-- One step of the max computation in `updateQualityChange`:
`if maxSubscribedQuality == VideoQuality_OFF || subQuality > maxSubscribedQuality`
(the comparison is the numeric Go `>` on enum values). -/
def maxStep (acc q : VideoQuality) : VideoQuality :=
  if acc = VideoQuality.OFF ∨ acc.toNat < q.toNat then q else acc

/-- The descriptor built by `updateQualityChange`: three disabled entries
when the new max is OFF, otherwise the unrolled
`for q := LOW; q <= HIGH; q++` loop emitting `(q, q <= maxSubscribedQuality)`
with the numeric Go `<=`. -/
def buildSubscribedQualities (m : VideoQuality) : List SubscribedQuality :=
  if m = VideoQuality.OFF then
    [⟨VideoQuality.LOW, false⟩, ⟨VideoQuality.MEDIUM, false⟩,
     ⟨VideoQuality.HIGH, false⟩]
  else
    [⟨VideoQuality.LOW, VideoQuality.leNum VideoQuality.LOW m⟩,
     ⟨VideoQuality.MEDIUM, VideoQuality.leNum VideoQuality.MEDIUM m⟩,
     ⟨VideoQuality.HIGH, VideoQuality.leNum VideoQuality.HIGH m⟩]

/-- `updateQualityChange` (the recompute): no-op unless the track is video;
fold both desired-quality maps with `maxStep` starting from OFF (iterating
the nil node map iterates nothing); if the result equals the stored
`maxSubscribedQuality`, return with no upcall; otherwise store it, build the
descriptor, and (when the publisher registered the upcall) return the upcall
payload as trace. -/
def updateQualityChange (t : MediaTrackSubscriptions) :
    MediaTrackSubscriptions × Option Upcall :=
  if t.kind ≠ TrackType.VIDEO then (t, none)
  else
    let m1 := (t.maxSubscriberQuality.map Prod.snd).foldl maxStep VideoQuality.OFF
    let newMax := ((goMapRead t.maxSubscriberNodeQuality).map Prod.snd).foldl maxStep m1
    if newMax = t.maxSubscribedQuality then (t, none)
    else
      let t1 := { t with maxSubscribedQuality := newMax }
      if t.hasOnSubscribedMaxQualityChange then
        (t1, some (buildSubscribedQualities newMax, newMax))
      else (t1, none)

/-- `NotifySubscriberMaxQuality`: no-op unless video; on OFF, delete the
subscriber's entry (no-op and no recompute when absent); otherwise store the
quality unless the existing entry already equals it; on any mutation invoke
`updateQualityChange`. -/
def NotifySubscriberMaxQuality (t : MediaTrackSubscriptions) (subscriberID : PID)
    (quality : VideoQuality) : MediaTrackSubscriptions × Option Upcall :=
  if t.kind ≠ TrackType.VIDEO then (t, none)
  else if quality = VideoQuality.OFF then
    match lookupQ t.maxSubscriberQuality subscriberID with
    | none => (t, none)
    | some _ =>
        updateQualityChange
          { t with maxSubscriberQuality := deleteQ t.maxSubscriberQuality subscriberID }
  else
    if lookupQ t.maxSubscriberQuality subscriberID = some quality then (t, none)
    else
      updateQualityChange
        { t with maxSubscriberQuality := insertQ t.maxSubscriberQuality subscriberID quality }

/-- `NotifySubscriberNodeMaxQuality`: same shape on the per-node map, except
that the map is the never-initialized `maxSubscriberNodeQuality`; reading the
nil map is fine, but the assignment `t.maxSubscriberNodeQuality[nodeID] = quality`
on the nil map is a Go runtime panic, modelled by `none`. -/
def NotifySubscriberNodeMaxQuality (t : MediaTrackSubscriptions) (nodeID : String)
    (quality : VideoQuality) : Option (MediaTrackSubscriptions × Option Upcall) :=
  if t.kind ≠ TrackType.VIDEO then some (t, none)
  else if quality = VideoQuality.OFF then
    match lookupQ (goMapRead t.maxSubscriberNodeQuality) nodeID with
    | none => some (t, none)
    | some _ =>
        some (updateQualityChange
          { t with maxSubscriberNodeQuality := goMapDelete t.maxSubscriberNodeQuality nodeID })
  else
    if lookupQ (goMapRead t.maxSubscriberNodeQuality) nodeID = some quality then
      some (t, none)
    else
      match t.maxSubscriberNodeQuality with
      | none => none
      | some m =>
          some (updateQualityChange
            { t with maxSubscriberNodeQuality := some (insertQ m nodeID quality) })

/-- `startMaxQualityTimer`: no-op unless video; otherwise arm the one-shot
initial-quality timer slot. -/
def startMaxQualityTimer (t : MediaTrackSubscriptions) : MediaTrackSubscriptions :=
  if t.kind ≠ TrackType.VIDEO then t
  else { t with maxQualityTimer := true }

/-- Outcomes of the fallible external calls made by `AddSubscriber`:
`sfu.NewDownTrack` (yielding the forwarder handle), the protocol-version
capability, `AddTrack` on the reuse path, whether the transceiver search
finds the sender's transceiver, `AddTransceiverFromTrack` on the legacy
path, and whether its `Sender()` is non-nil. -/
structure AddSubscriberEnv where
  newDownTrackResult : Except String Nat
  supportsTransceiverReuse : Bool
  addTrackResult : Except String Unit
  transceiverFound : Bool
  addTransceiverResult : Except String Unit
  legacySenderPresent : Bool
deriving Repr

/-- `AddSubscriber`: return `(nil, nil)` when the subscriber is already in
the registry; then construct the forwarder, attach it to the subscriber's
peer connection along one of the two code paths, and only after every
fallible step has succeeded store the `SubscribedTrack` into the registry.
Each error return leaves the state untouched.  The deferred
notify-HIGH/negotiate goroutine and the telemetry calls mutate no engine
state and are outside this model. -/
def AddSubscriber (t : MediaTrackSubscriptions) (subscriberID : PID)
    (env : AddSubscriberEnv) : MediaTrackSubscriptions × Except String (Option Nat) :=
  if IsSubscriber t subscriberID then (t, Except.ok none)
  else
    match env.newDownTrackResult with
    | Except.error e => (t, Except.error e)
    | Except.ok downTrack =>
      let attach : Except String Unit :=
        if env.supportsTransceiverReuse then
          match env.addTrackResult with
          | Except.error e => Except.error e
          | Except.ok _ =>
              if env.transceiverFound then Except.ok ()
              else Except.error "cannot subscribe without a transceiver in place"
        else
          match env.addTransceiverResult with
          | Except.error e => Except.error e
          | Except.ok _ =>
              if env.legacySenderPresent then Except.ok ()
              else Except.error "cannot subscribe without a sender in place"
      match attach with
      | Except.error e => (t, Except.error e)
      | Except.ok _ =>
          ({ t with subscribedTracks :=
              insertQ t.subscribedTracks subscriberID ⟨subscriberID, downTrack⟩ },
           Except.ok (some downTrack))

/-- `RevokeDisallowedSubscribers`: iterate the registry; every entry whose
key is not in the allowed list has its forwarder closed and its id recorded.
Returns (revoked ids, closed forwarder handles) in iteration order. -/
def revokeLoop : List (PID × SubscribedTrack) → List PID → List PID × List Nat
  | [], _ => ([], [])
  | kv :: rest, allowed =>
      let r := revokeLoop rest allowed
      if allowed.contains kv.1 then r
      else (kv.1 :: r.1, kv.2.downTrack :: r.2)

/-- `RevokeDisallowedSubscribers` on the engine state. -/
def RevokeDisallowedSubscribers (t : MediaTrackSubscriptions)
    (allowedSubscriberIDs : List PID) : List PID × List Nat :=
  revokeLoop t.subscribedTracks allowedSubscriberIDs

/-- The error returned by `RemoveTrack` in the on-close handler, as the
handler discriminates it: `webrtc.ErrConnectionClosed`,
`rtcerr.InvalidStateError`, or anything else. -/
inductive RemoveTrackErr where
  | connClosed
  | invalidState
  | other
deriving DecidableEq, Repr

/-- External facts observed by the on-close handler: whether
`sub.SubscriberPC().ConnectionState()` is `Closed`, whether the captured
`sender` is non-nil, and the outcome of `RemoveTrack`. -/
structure OnCloseEnv where
  connectionStateClosed : Bool
  senderPresent : Bool
  removeTrackResult : Option RemoveTrackErr
deriving Repr

/-- Trace of one execution of the on-close handler: the final engine state,
whether `NotifySubscriberMaxQuality(subscriberID, OFF)` was reached, and the
upcall that notification produced (if any). -/
structure OnCloseResult where
  state : MediaTrackSubscriptions
  notifiedOff : Bool
  upcall : Option Upcall
deriving Repr

/-- The `OnCloseHandler` body registered by `AddSubscriber`: delete the
registry entry, then return early when the peer connection is closed, when
the sender is nil, or when `RemoveTrack` reports the connection closed;
only otherwise retract the subscriber's quality contribution with
`NotifySubscriberMaxQuality(subscriberID, OFF)`.  (Telemetry, logging and
the final `RemoveSubscribedTrack`/`Negotiate` calls mutate no engine
state.) -/
def onCloseHandler (t : MediaTrackSubscriptions) (subscriberID : PID)
    (env : OnCloseEnv) : OnCloseResult :=
  let t1 := { t with subscribedTracks := deleteQ t.subscribedTracks subscriberID }
  if env.connectionStateClosed then ⟨t1, false, none⟩
  else if env.senderPresent = false then ⟨t1, false, none⟩
  else if env.removeTrackResult = some RemoveTrackErr.connClosed then ⟨t1, false, none⟩
  else
    let r := NotifySubscriberMaxQuality t1 subscriberID VideoQuality.OFF
    ⟨r.1, true, r.2⟩

/-- The send loop of `sendDownTrackBindingReports` starting at attempt `i`:
each iteration attempts `WriteRTCP` (recorded as `(time in ms, success)`,
the attempt `i` happening after `i` sleeps of 20 ms); a write error returns
immediately; after the write, `i > 5` returns; otherwise sleep 20 ms and
loop. -/
def burstFrom (writeErr : Nat → Bool) (i : Nat) : List (Nat × Bool) :=
  if writeErr i then [(20 * i, false)]
  else if h : 5 < i then [(20 * i, true)]
  else (20 * i, true) :: burstFrom writeErr (i + 1)
termination_by 6 - i
decreasing_by omega

/-- `sendDownTrackBindingReports`: nothing is sent when the SubscribedTrack
is absent from the registry or its forwarder yields nil SDES chunks;
otherwise run the RTCP burst loop from attempt 0. -/
def sendDownTrackBindingReports (subTrackPresent : Bool) (chunksPresent : Bool)
    (writeErr : Nat → Bool) : List (Nat × Bool) :=
  if subTrackPresent = false then []
  else if chunksPresent = false then []
  else burstFrom writeErr 0

/-- A public aggregator operation, for reasoning about arbitrary call
sequences. -/
inductive AggOp where
  | notifySub (id : PID) (q : VideoQuality)
  | notifyNode (id : String) (q : VideoQuality)
  | recompute
  | startTimer
deriving Repr

/-- Apply one aggregator operation; `none` models a Go panic. -/
def applyOp (t : MediaTrackSubscriptions) :
    AggOp → Option (MediaTrackSubscriptions × Option Upcall)
  | AggOp.notifySub id q => some (NotifySubscriberMaxQuality t id q)
  | AggOp.notifyNode id q => NotifySubscriberNodeMaxQuality t id q
  | AggOp.recompute => some (updateQualityChange t)
  | AggOp.startTimer => some (startMaxQualityTimer t, none)

/-- Apply a sequence of aggregator operations, collecting every upcall;
`none` models a Go panic somewhere in the sequence. -/
def applyOps (t : MediaTrackSubscriptions) :
    List AggOp → Option (MediaTrackSubscriptions × List Upcall)
  | [] => some (t, [])
  | op :: rest =>
      match applyOp t op with
      | none => none
      | some (t1, ev) =>
          match applyOps t1 rest with
          | none => none
          | some (t2, evs) => some (t2, ev.toList ++ evs)

/-- The descriptor shape as the spec words it: when new-max is OFF, exactly
three disabled entries for LOW, MEDIUM, HIGH; otherwise one entry
`(q, q ≤ new-max)` for each q from LOW up to HIGH inclusive, in that order,
under the total order OFF < LOW < MEDIUM < HIGH. -/
def specDescriptor (m : VideoQuality) : List SubscribedQuality :=
  if m = VideoQuality.OFF then
    [⟨VideoQuality.LOW, false⟩, ⟨VideoQuality.MEDIUM, false⟩,
     ⟨VideoQuality.HIGH, false⟩]
  else
    [⟨VideoQuality.LOW, VideoQuality.specLe VideoQuality.LOW m⟩,
     ⟨VideoQuality.MEDIUM, VideoQuality.specLe VideoQuality.MEDIUM m⟩,
     ⟨VideoQuality.HIGH, VideoQuality.specLe VideoQuality.HIGH m⟩]

/-- The current-max value as the spec words it: the pointwise maximum, under
the total order OFF < LOW < MEDIUM < HIGH, of all values in both
desired-quality maps, with OFF as the identity; OFF when both maps are
empty. -/
def specMaxAll (t : MediaTrackSubscriptions) : VideoQuality :=
  ((t.maxSubscriberQuality.map Prod.snd) ++
      ((goMapRead t.maxSubscriberNodeQuality).map Prod.snd)).foldl
    VideoQuality.specMax VideoQuality.OFF

/-- A concrete video-track engine state with one subscriber entry and one
node entry, used by the evaluation theorems. -/
def exampleVideoState : MediaTrackSubscriptions :=
  { kind := TrackType.VIDEO
    subscribedTracks := [("A", ⟨"A", 0⟩)]
    maxSubscriberQuality := [("A", VideoQuality.LOW)]
    maxSubscriberNodeQuality := some [("n1", VideoQuality.MEDIUM)]
    maxSubscribedQuality := VideoQuality.LOW
    hasOnSubscribedMaxQualityChange := true
    maxQualityTimer := false }

lemma maxStep_eq_specMax :
    ∀ acc q, q ≠ VideoQuality.OFF → maxStep acc q = VideoQuality.specMax acc q := by
  decide

lemma foldl_maxStep_eq_specMax (l : List VideoQuality) :
    ∀ init, (∀ q ∈ l, q ≠ VideoQuality.OFF) →
      l.foldl maxStep init = l.foldl VideoQuality.specMax init := by
  induction l with
  | nil => intro init _; rfl
  | cons q resl ih =>
      intro init h
      simp only [List.foldl_cons]
      rw [maxStep_eq_specMax init q (h q (List.mem_cons_self q resl))]
      exact ih _ (fun p hp => h p (List.mem_cons_of_mem q hp))

lemma buildSubscribedQualities_eq_specDescriptor :
    ∀ m, buildSubscribedQualities m = specDescriptor m := by
  decide

lemma updateQualityChange_eq_of_video (t : MediaTrackSubscriptions)
    (hk : t.kind = TrackType.VIDEO)
    (hs : ∀ kv ∈ t.maxSubscriberQuality, kv.2 ≠ VideoQuality.OFF)
    (hn : ∀ kv ∈ goMapRead t.maxSubscriberNodeQuality, kv.2 ≠ VideoQuality.OFF) :
    updateQualityChange t =
      (if specMaxAll t = t.maxSubscribedQuality then (t, none)
       else if t.hasOnSubscribedMaxQualityChange then
         ({ t with maxSubscribedQuality := specMaxAll t },
          some (buildSubscribedQualities (specMaxAll t), specMaxAll t))
       else ({ t with maxSubscribedQuality := specMaxAll t }, none)) := by
  have hvs : ∀ q ∈ t.maxSubscriberQuality.map Prod.snd, q ≠ VideoQuality.OFF := by
    intro q hq
    rcases List.mem_map.1 hq with ⟨kv, hkv, he⟩
    exact he ▸ hs kv hkv
  have hvn : ∀ q ∈ (goMapRead t.maxSubscriberNodeQuality).map Prod.snd,
      q ≠ VideoQuality.OFF := by
    intro q hq
    rcases List.mem_map.1 hq with ⟨kv, hkv, he⟩
    exact he ▸ hn kv hkv
  have hmax : ((goMapRead t.maxSubscriberNodeQuality).map Prod.snd).foldl maxStep
      ((t.maxSubscriberQuality.map Prod.snd).foldl maxStep VideoQuality.OFF)
      = specMaxAll t := by
    rw [specMaxAll, List.foldl_append,
        foldl_maxStep_eq_specMax _ _ hvs, foldl_maxStep_eq_specMax _ _ hvn]
  unfold updateQualityChange
  simp only [hk, ne_eq, not_true_eq_false, if_false, hmax]

/-- C1: for a video track with the upcall registered and OFF stored in
neither desired-quality map (the invariant the notify operations maintain),
recompute stores as current max exactly the pointwise maximum, under the
total order OFF < LOW < MEDIUM < HIGH, of all values in both maps (OFF when
both are empty), and fires the upcall exactly when that maximum differs
from the previously stored current max, passing the descriptor and the new
maximum. -/
theorem updateQualityChange_publishes_spec_max (t : MediaTrackSubscriptions)
    (hk : t.kind = TrackType.VIDEO)
    (hh : t.hasOnSubscribedMaxQualityChange = true)
    (hs : ∀ kv ∈ t.maxSubscriberQuality, kv.2 ≠ VideoQuality.OFF)
    (hn : ∀ kv ∈ goMapRead t.maxSubscriberNodeQuality, kv.2 ≠ VideoQuality.OFF) :
    (updateQualityChange t).1.maxSubscribedQuality = specMaxAll t ∧
    ((updateQualityChange t).2 ≠ none ↔ specMaxAll t ≠ t.maxSubscribedQuality) ∧
    (updateQualityChange t).2 =
      (if specMaxAll t = t.maxSubscribedQuality then none
       else some (specDescriptor (specMaxAll t), specMaxAll t)) := by
  rw [updateQualityChange_eq_of_video t hk hs hn, hh,
      buildSubscribedQualities_eq_specDescriptor]
  by_cases h : specMaxAll t = t.maxSubscribedQuality
  · simp [h]
  · simp [h]

/-- Evaluation of `updateQualityChange_publishes_spec_max` on a concrete
state: subscriber map {A ↦ LOW}, node map {n1 ↦ MEDIUM}, stored max LOW. -/
theorem updateQualityChange_publishes_spec_max_witness :
    (updateQualityChange exampleVideoState).1.maxSubscribedQuality
        = specMaxAll exampleVideoState ∧
    ((updateQualityChange exampleVideoState).2 ≠ none ↔
        specMaxAll exampleVideoState ≠ exampleVideoState.maxSubscribedQuality) ∧
    (updateQualityChange exampleVideoState).2 =
      (if specMaxAll exampleVideoState = exampleVideoState.maxSubscribedQuality
       then none
       else some (specDescriptor (specMaxAll exampleVideoState),
                  specMaxAll exampleVideoState)) :=
  updateQualityChange_publishes_spec_max exampleVideoState (by rfl) (by rfl)
    (by decide) (by decide)

/-- C3: whenever recompute fires the upcall, the descriptor passed is
exactly the spec shape: three disabled entries for LOW, MEDIUM, HIGH when
the new max is OFF, otherwise (q, q ≤ new-max) for q from LOW to HIGH in
order. -/
theorem upcall_descriptor_shape (t : MediaTrackSubscriptions)
    (sq : List SubscribedQuality) (m : VideoQuality)
    (h : (updateQualityChange t).2 = some (sq, m)) :
    sq = specDescriptor m := by
  unfold updateQualityChange at h
  by_cases hk : t.kind = TrackType.VIDEO
  · simp only [hk, ne_eq, not_true_eq_false, if_false] at h
    set newMax := ((goMapRead t.maxSubscriberNodeQuality).map Prod.snd).foldl maxStep
      ((t.maxSubscriberQuality.map Prod.snd).foldl maxStep VideoQuality.OFF) with hnm
    by_cases he : newMax = t.maxSubscribedQuality
    · simp [← hnm, he] at h
    · by_cases hreg : t.hasOnSubscribedMaxQualityChange
      · simp only [he, if_false, hreg, if_true, Option.some_inj, Prod.mk.injEq] at h
        rw [← h.1, ← h.2, buildSubscribedQualities_eq_specDescriptor]
      · simp [he, hreg] at h
  · simp [hk] at h

/-- Evaluation of `upcall_descriptor_shape` on a concrete firing: on the
example state the recompute fires with new max MEDIUM and descriptor
{(LOW, true), (MEDIUM, true), (HIGH, false)}. -/
theorem upcall_descriptor_shape_witness :
    [(⟨VideoQuality.LOW, true⟩ : SubscribedQuality),
     ⟨VideoQuality.MEDIUM, true⟩, ⟨VideoQuality.HIGH, false⟩]
      = specDescriptor VideoQuality.MEDIUM :=
  upcall_descriptor_shape exampleVideoState
    [⟨VideoQuality.LOW, true⟩, ⟨VideoQuality.MEDIUM, true⟩,
     ⟨VideoQuality.HIGH, false⟩]
    VideoQuality.MEDIUM (by rfl)

lemma mem_insertQ {K V : Type} [DecidableEq K] (m : List (K × V)) (k : K) (v : V) :
    ∀ kv ∈ insertQ m k v, kv = (k, v) ∨ kv ∈ m := by
  induction m with
  | nil => intro kv hkv; simp [insertQ] at hkv; simp [hkv]
  | cons p rest ih =>
      intro kv hkv
      by_cases hp : p.1 = k
      · simp only [insertQ, hp, if_true] at hkv
        rcases List.mem_cons.1 hkv with h | h
        · exact Or.inl h
        · exact Or.inr (List.mem_cons_of_mem p h)
      · simp only [insertQ, hp, if_false] at hkv
        rcases List.mem_cons.1 hkv with h | h
        · exact Or.inr (h ▸ List.mem_cons_self p rest)
        · rcases ih kv h with h1 | h1
          · exact Or.inl h1
          · exact Or.inr (List.mem_cons_of_mem p h1)

lemma mem_deleteQ {K V : Type} [DecidableEq K] (m : List (K × V)) (k : K) :
    ∀ kv ∈ deleteQ m k, kv ∈ m := by
  induction m with
  | nil => intro kv hkv; simp [deleteQ] at hkv
  | cons p rest ih =>
      intro kv hkv
      by_cases hp : p.1 = k
      · simp only [deleteQ, hp, if_true] at hkv
        exact List.mem_cons_of_mem p (ih kv hkv)
      · simp only [deleteQ, hp, if_false] at hkv
        rcases List.mem_cons.1 hkv with h | h
        · exact h ▸ List.mem_cons_self p rest
        · exact List.mem_cons_of_mem p (ih kv h)

lemma lookupQ_deleteQ {K V : Type} [DecidableEq K] (m : List (K × V)) (k : K) :
    lookupQ (deleteQ m k) k = none := by
  induction m with
  | nil => rfl
  | cons p rest ih =>
      by_cases hp : p.1 = k
      · simp only [deleteQ, hp, if_true]; exact ih
      · simp only [deleteQ, hp, if_false, lookupQ, ih]

lemma updateQualityChange_fst_maps (t : MediaTrackSubscriptions) :
    (updateQualityChange t).1.maxSubscriberQuality = t.maxSubscriberQuality ∧
    (updateQualityChange t).1.maxSubscriberNodeQuality = t.maxSubscriberNodeQuality ∧
    (updateQualityChange t).1.subscribedTracks = t.subscribedTracks ∧
    (updateQualityChange t).1.kind = t.kind := by
  unfold updateQualityChange
  by_cases hk : t.kind ≠ TrackType.VIDEO
  · simp [hk]
  · simp only [hk, if_false]
    by_cases he : ((goMapRead t.maxSubscriberNodeQuality).map Prod.snd).foldl maxStep
        ((t.maxSubscriberQuality.map Prod.snd).foldl maxStep VideoQuality.OFF)
        = t.maxSubscribedQuality
    · simp [he]
    · by_cases hreg : t.hasOnSubscribedMaxQualityChange <;> simp [he, hreg]

/-- C4: for a video track, notify-subscriber behaves by cases exactly as
specified: q = OFF with no entry is a no-op without recompute; q = OFF with
an entry deletes it and recomputes; q ≠ OFF equal to the existing entry is a
no-op without recompute; otherwise the entry is set to q and recompute runs.
Consequently OFF is never stored in the per-subscriber map. -/
theorem notifySubscriberMaxQuality_cases (t : MediaTrackSubscriptions)
    (id : PID) (q : VideoQuality) (hk : t.kind = TrackType.VIDEO) :
    (q = VideoQuality.OFF → lookupQ t.maxSubscriberQuality id = none →
        NotifySubscriberMaxQuality t id q = (t, none)) ∧
    (q = VideoQuality.OFF → (lookupQ t.maxSubscriberQuality id).isSome →
        NotifySubscriberMaxQuality t id q =
          updateQualityChange
            { t with maxSubscriberQuality := deleteQ t.maxSubscriberQuality id }) ∧
    (q ≠ VideoQuality.OFF → lookupQ t.maxSubscriberQuality id = some q →
        NotifySubscriberMaxQuality t id q = (t, none)) ∧
    (q ≠ VideoQuality.OFF → lookupQ t.maxSubscriberQuality id ≠ some q →
        NotifySubscriberMaxQuality t id q =
          updateQualityChange
            { t with maxSubscriberQuality := insertQ t.maxSubscriberQuality id q }) ∧
    ((∀ kv ∈ t.maxSubscriberQuality, kv.2 ≠ VideoQuality.OFF) →
        ∀ kv ∈ (NotifySubscriberMaxQuality t id q).1.maxSubscriberQuality,
          kv.2 ≠ VideoQuality.OFF) := by
  refine ⟨?_, ?_, ?_, ?_, ?_⟩
  · intro hq hl
    simp [NotifySubscriberMaxQuality, hk, hq, hl]
  · intro hq hl
    rcases Option.isSome_iff_exists.1 hl with ⟨v, hv⟩
    simp [NotifySubscriberMaxQuality, hk, hq, hv]
  · intro hq hl
    simp [NotifySubscriberMaxQuality, hk, hq, hl]
  · intro hq hl
    cases hv : lookupQ t.maxSubscriberQuality id with
    | none => simp [NotifySubscriberMaxQuality, hk, hq, hv]
    | some v =>
        have hvq : ¬(v = q) := fun he => hl (he ▸ hv)
        simp [NotifySubscriberMaxQuality, hk, hq, hv, hvq]
  · intro hinv kv hkv
    unfold NotifySubscriberMaxQuality at hkv
    by_cases hq : q = VideoQuality.OFF
    · cases hv : lookupQ t.maxSubscriberQuality id with
      | none => simp only [hk, ne_eq, not_true_eq_false, if_false, hq, if_true, hv] at hkv
                exact hinv kv hkv
      | some v =>
          simp only [hk, ne_eq, not_true_eq_false, if_false, hq, if_true, hv] at hkv
          rw [(updateQualityChange_fst_maps _).1] at hkv
          exact hinv kv (mem_deleteQ _ _ kv hkv)
    · by_cases hv : lookupQ t.maxSubscriberQuality id = some q
      · simp only [hk, ne_eq, not_true_eq_false, if_false, hq, if_false, hv, if_true] at hkv
        exact hinv kv hkv
      · simp only [hk, ne_eq, not_true_eq_false, if_false, hq, if_false, hv, if_true] at hkv
        rw [(updateQualityChange_fst_maps _).1] at hkv
        rcases mem_insertQ _ _ _ kv hkv with h | h
        · rw [h]; exact hq
        · exact hinv kv h

/-- Evaluation of `notifySubscriberMaxQuality_cases` on the example video
state (subscriber map {A ↦ LOW}): notifying A with HIGH replaces the entry
and invokes recompute. -/
theorem notifySubscriberMaxQuality_cases_witness :
    NotifySubscriberMaxQuality exampleVideoState "A" VideoQuality.HIGH =
      updateQualityChange
        { exampleVideoState with
            maxSubscriberQuality :=
              insertQ exampleVideoState.maxSubscriberQuality "A"
                VideoQuality.HIGH } :=
  (notifySubscriberMaxQuality_cases exampleVideoState "A" VideoQuality.HIGH
      (by rfl)).2.2.2.1 (by decide) (by decide)

/-- C2 (code evaluation): on a freshly constructed video-track engine the
per-node map is the Go nil map (`NewMediaTrackSubscriptions` never allocates
it); notify-node with q ≠ OFF reaches the map assignment and panics instead
of storing q and returning normally, while the q = OFF no-entry case is the
specified no-op (reading a nil map is legal). -/
theorem notifyNode_nil_map_crash :
    NotifySubscriberNodeMaxQuality (NewMediaTrackSubscriptions TrackType.VIDEO)
        "n1" VideoQuality.HIGH = none ∧
    NotifySubscriberNodeMaxQuality (NewMediaTrackSubscriptions TrackType.VIDEO)
        "n1" VideoQuality.OFF
      = some (NewMediaTrackSubscriptions TrackType.VIDEO, none) :=
  ⟨rfl, rfl⟩

lemma applyOp_audio (t : MediaTrackSubscriptions)
    (hk : t.kind = TrackType.AUDIO) (op : AggOp) :
    applyOp t op = some (t, none) := by
  cases op with
  | notifySub id q => simp [applyOp, NotifySubscriberMaxQuality, hk]
  | notifyNode id q => simp [applyOp, NotifySubscriberNodeMaxQuality, hk]
  | recompute => simp [applyOp, updateQualityChange, hk]
  | startTimer => simp [applyOp, startMaxQualityTimer, hk]

/-- C6 (counterexample): on a freshly constructed audio-track engine the
stored current max is the enum zero value LOW, not OFF, and it is still LOW
(never OFF) after a notify call. -/
theorem audio_current_max_not_OFF :
    (applyOps (NewMediaTrackSubscriptions TrackType.AUDIO)
        [AggOp.notifySub "A" VideoQuality.HIGH]).map
        (fun r => r.1.maxSubscribedQuality) = some VideoQuality.LOW ∧
    VideoQuality.LOW ≠ VideoQuality.OFF :=
  ⟨rfl, by decide⟩

/-- C6 (amended): for an audio track every public aggregator operation is a
no-op: any sequence of notify-subscriber, notify-node, recompute and
start-initial-timer calls leaves the whole state unchanged (so both
desired-quality maps stay empty on a fresh engine and the current max stays
at its construction value, the enum zero LOW, not OFF) and produces no
upcall. -/
theorem audio_operations_are_noops (t : MediaTrackSubscriptions)
    (hk : t.kind = TrackType.AUDIO) (ops : List AggOp) :
    applyOps t ops = some (t, []) := by
  induction ops with
  | nil => rfl
  | cons op rest ih => simp [applyOps, applyOp_audio t hk op, ih]

/-- Evaluation of `audio_operations_are_noops` on a fresh audio engine and a
concrete operation sequence. -/
theorem audio_operations_are_noops_witness :
    applyOps (NewMediaTrackSubscriptions TrackType.AUDIO)
        [AggOp.notifySub "A" VideoQuality.HIGH,
         AggOp.notifyNode "n1" VideoQuality.MEDIUM,
         AggOp.recompute, AggOp.startTimer]
      = some (NewMediaTrackSubscriptions TrackType.AUDIO, []) :=
  audio_operations_are_noops (NewMediaTrackSubscriptions TrackType.AUDIO) (by rfl) _

/-- A concrete video-track engine state whose subscriber A contributes HIGH,
used by the on-close evaluation theorems. -/
def exampleCloseState : MediaTrackSubscriptions :=
  { kind := TrackType.VIDEO
    subscribedTracks := [("A", ⟨"A", 0⟩)]
    maxSubscriberQuality := [("A", VideoQuality.HIGH)]
    maxSubscriberNodeQuality := none
    maxSubscribedQuality := VideoQuality.HIGH
    hasOnSubscribedMaxQualityChange := true
    maxQualityTimer := false }

/-- C5 (counterexample): when the subscriber's peer connection is already
closed the on-close handler returns before notify-subscriber(A, OFF): the
retraction does not happen and A's quality contribution stays in the
per-subscriber map. -/
theorem onCloseHandler_skips_retraction_when_closed :
    (onCloseHandler exampleCloseState "A"
        ⟨true, true, none⟩).notifiedOff = false ∧
    lookupQ (onCloseHandler exampleCloseState "A"
        ⟨true, true, none⟩).state.maxSubscriberQuality "A"
      = some VideoQuality.HIGH :=
  ⟨rfl, rfl⟩

/-- C5 (amended): the on-close handler reaches notify-subscriber(x, OFF)
only when the peer connection is not closed, the sender is non-null and
RemoveTrack did not report the connection closed; under those conditions, on
a video track, the retraction runs and x's contribution is gone from the
per-subscriber map before the handler's upcall (if any) is produced. -/
theorem onCloseHandler_retracts_when_connection_open
    (t : MediaTrackSubscriptions) (x : PID) (env : OnCloseEnv)
    (hk : t.kind = TrackType.VIDEO)
    (h1 : env.connectionStateClosed = false) (h2 : env.senderPresent = true)
    (h3 : env.removeTrackResult ≠ some RemoveTrackErr.connClosed) :
    (onCloseHandler t x env).notifiedOff = true ∧
    lookupQ (onCloseHandler t x env).state.maxSubscriberQuality x = none := by
  unfold onCloseHandler
  simp only [h1, h2, h3, Bool.false_eq_true, if_false, Bool.true_eq_false, ne_eq,
    not_false_eq_true, if_neg h3]
  refine ⟨trivial, ?_⟩
  cases hv : lookupQ t.maxSubscriberQuality x with
  | none => simp [NotifySubscriberMaxQuality, hk, hv]
  | some v =>
      simp only [NotifySubscriberMaxQuality, hk, ne_eq, not_true_eq_false, if_false,
        if_true, hv]
      rw [(updateQualityChange_fst_maps _).1]
      exact lookupQ_deleteQ _ _

/-- Evaluation of `onCloseHandler_retracts_when_connection_open` on the
concrete close state with an open connection and a present sender. -/
theorem onCloseHandler_retracts_witness :
    (onCloseHandler exampleCloseState "A"
        ⟨false, true, none⟩).notifiedOff = true ∧
    lookupQ (onCloseHandler exampleCloseState "A"
        ⟨false, true, none⟩).state.maxSubscriberQuality "A" = none :=
  onCloseHandler_retracts_when_connection_open exampleCloseState "A"
    ⟨false, true, none⟩ (by rfl) (by rfl) (by rfl) (by decide)

lemma revokeLoop_eq (l : List (PID × SubscribedTrack)) (allowed : List PID) :
    revokeLoop l allowed =
      ((l.filter (fun kv => !(allowed.contains kv.1))).map Prod.fst,
       (l.filter (fun kv => !(allowed.contains kv.1))).map
          (fun kv => kv.2.downTrack)) := by
  induction l with
  | nil => rfl
  | cons kv rest ih =>
      by_cases h : kv.1 ∈ allowed <;> simp [revokeLoop, h, ih]

/-- C7: revoke-disallowed returns exactly the ids present in the registry
that are not in the allowed set, in registry order, and closes exactly the
forwarders of those same entries and no other. -/
theorem revokeDisallowedSubscribers_exact (t : MediaTrackSubscriptions)
    (allowed : List PID) :
    RevokeDisallowedSubscribers t allowed =
      ((t.subscribedTracks.filter
          (fun kv => !(allowed.contains kv.1))).map Prod.fst,
       (t.subscribedTracks.filter
          (fun kv => !(allowed.contains kv.1))).map
          (fun kv => kv.2.downTrack)) :=
  revokeLoop_eq t.subscribedTracks allowed

/-- C9: adding an already-present subscriber returns a nil forwarder with no
error and leaves the whole engine state (registry, quality maps, current
max) unchanged. -/
theorem addSubscriber_idempotent_when_present (t : MediaTrackSubscriptions)
    (id : PID) (env : AddSubscriberEnv) (h : IsSubscriber t id = true) :
    AddSubscriber t id env = (t, Except.ok none) := by
  simp [AddSubscriber, h]

/-- Evaluation of `addSubscriber_idempotent_when_present` on the concrete
state whose registry already holds A. -/
theorem addSubscriber_idempotent_witness :
    AddSubscriber exampleCloseState "A"
        ⟨Except.ok 1, true, Except.ok (), true, Except.ok (), true⟩
      = (exampleCloseState, Except.ok none) :=
  addSubscriber_idempotent_when_present exampleCloseState "A"
    ⟨Except.ok 1, true, Except.ok (), true, Except.ok (), true⟩ (by rfl)

lemma lookupQ_insertQ_self {K V : Type} [DecidableEq K] (m : List (K × V))
    (k : K) (v : V) : lookupQ (insertQ m k v) k = some v := by
  induction m with
  | nil => simp [insertQ, lookupQ]
  | cons p rest ih =>
      by_cases hp : p.1 = k
      · simp [insertQ, hp, lookupQ]
      · simp [insertQ, hp, lookupQ, ih]

/-- C10: AddSubscriber is atomic with respect to the registry: starting from
a state where the subscriber is absent, every error return (forwarder
construction failure, add-track or add-transceiver failure, missing
transceiver, missing sender) leaves the state unchanged with is-subscriber
still false, and the SubscribedTrack is stored, as the single new registry
entry, only on the success return after all fallible attachment steps. -/
theorem addSubscriber_registry_atomic (t : MediaTrackSubscriptions)
    (id : PID) (env : AddSubscriberEnv) (h : IsSubscriber t id = false) :
    (∀ e, (AddSubscriber t id env).2 = Except.error e →
        (AddSubscriber t id env).1 = t ∧
        IsSubscriber (AddSubscriber t id env).1 id = false) ∧
    (∀ d, (AddSubscriber t id env).2 = Except.ok (some d) →
        (AddSubscriber t id env).1.subscribedTracks
          = insertQ t.subscribedTracks id ⟨id, d⟩ ∧
        IsSubscriber (AddSubscriber t id env).1 id = true) := by
  simp only [AddSubscriber, h, Bool.false_eq_true, if_false]
  cases hdt : env.newDownTrackResult with
  | error e => simp [h]
  | ok d =>
      by_cases hr : env.supportsTransceiverReuse
      · cases hat : env.addTrackResult with
        | error e => simp [hr, h]
        | ok u =>
            by_cases htf : env.transceiverFound
            · simp [hr, htf, IsSubscriber, lookupQ_insertQ_self]
            · simp [hr, htf, h]
      · cases hat : env.addTransceiverResult with
        | error e => simp [hr, h]
        | ok u =>
            by_cases hsp : env.legacySenderPresent
            · simp [hr, hsp, IsSubscriber, lookupQ_insertQ_self]
            · simp [hr, hsp, h]

/-- Evaluation of `addSubscriber_registry_atomic` on a fresh video engine
whose forwarder construction fails: state unchanged and no registration. -/
theorem addSubscriber_registry_atomic_witness :
    (AddSubscriber (NewMediaTrackSubscriptions TrackType.VIDEO) "B"
        ⟨Except.error "downtrack", true, Except.ok (), true, Except.ok (), true⟩).1
      = NewMediaTrackSubscriptions TrackType.VIDEO ∧
    IsSubscriber
      (AddSubscriber (NewMediaTrackSubscriptions TrackType.VIDEO) "B"
        ⟨Except.error "downtrack", true, Except.ok (), true, Except.ok (), true⟩).1
      "B" = false :=
  (addSubscriber_registry_atomic (NewMediaTrackSubscriptions TrackType.VIDEO) "B"
      ⟨Except.error "downtrack", true, Except.ok (), true, Except.ok (), true⟩
      (by rfl)).1 "downtrack" (by rfl)

lemma burstFrom_all_ok (w : Nat → Bool) :
    ∀ n i, i + n = 6 → (∀ j, i ≤ j → j ≤ 6 → w j = false) →
      burstFrom w i = (List.range' i (n + 1)).map (fun j => (20 * j, true)) := by
  intro n
  induction n with
  | zero =>
      intro i hi hw
      have h6 : i = 6 := by omega
      subst h6
      rw [burstFrom]
      simp [hw 6 (by omega) (by omega)]
  | succ n ih =>
      intro i hi hw
      have hle : ¬ 5 < i := by omega
      rw [burstFrom]
      simp only [hw i (by omega) (by omega), Bool.false_eq_true, if_false, hle,
        dif_neg hle]
      rw [ih (i + 1) (by omega) (fun j hj1 hj2 => hw j (by omega) hj2)]
      rfl

lemma burstFrom_first_err (w : Nat → Bool) :
    ∀ d i, i + d ≤ 6 → w (i + d) = true → (∀ j, i ≤ j → j < i + d → w j = false) →
      burstFrom w i =
        (List.range' i d).map (fun j => (20 * j, true)) ++ [(20 * (i + d), false)] := by
  intro d
  induction d with
  | zero =>
      intro i hi hw hlt
      rw [burstFrom]
      simp only [Nat.add_zero] at hw
      simp [hw]
  | succ d ih =>
      intro i hi hw hlt
      have hwi : w i = false := hlt i (Nat.le_refl i) (by omega)
      have hle : ¬ 5 < i := by omega
      rw [burstFrom]
      simp only [hwi, Bool.false_eq_true, if_false, dif_neg hle]
      have hw1 : w ((i + 1) + d) = true := by
        have : (i + 1) + d = i + (d + 1) := by omega
        rw [this]; exact hw
      rw [ih (i + 1) (by omega) hw1
        (fun j hj1 hj2 => hlt j (by omega) (by omega))]
      have harr : i + (d + 1) = (i + 1) + d := by omega
      rw [harr]
      rfl

/-- C8: in the binding report pump, nothing is sent when the SubscribedTrack
is absent or its SDES chunks are absent; with both present and no write
error the source-description packet is written exactly seven times at 20 ms
intervals, t = 0 through t = 120 ms; and a write error at any attempt aborts
the burst immediately — the sends before it succeed, the failing attempt is
the last, and nothing further is sent. -/
theorem sendDownTrackBindingReports_burst (writeErr : Nat → Bool) :
    (∀ c, sendDownTrackBindingReports false c writeErr = []) ∧
    (∀ s, sendDownTrackBindingReports s false writeErr = []) ∧
    ((∀ j, j ≤ 6 → writeErr j = false) →
        sendDownTrackBindingReports true true writeErr =
          [(0, true), (20, true), (40, true), (60, true), (80, true),
           (100, true), (120, true)]) ∧
    (∀ k, k ≤ 6 → writeErr k = true → (∀ j, j < k → writeErr j = false) →
        sendDownTrackBindingReports true true writeErr =
          (List.range' 0 k).map (fun j => (20 * j, true)) ++ [(20 * k, false)]) := by
  refine ⟨fun c => rfl, fun s => ?_, fun hw => ?_, fun k hk hwk hlt => ?_⟩
  · cases s <;> rfl
  · show burstFrom writeErr 0 = _
    rw [burstFrom_all_ok writeErr 6 0 (by omega) (fun j hj1 hj2 => hw j hj2)]
    rfl
  · show burstFrom writeErr 0 = _
    have hwk0 : writeErr (0 + k) = true := by simpa using hwk
    rw [burstFrom_first_err writeErr k 0 (by omega) hwk0
      (fun j hj1 hj2 => hlt j (by omega))]
    simp

/-- Evaluation of `sendDownTrackBindingReports_burst`: with the write at
attempt 3 failing, the pump sends at t = 0, 20, 40 ms successfully and the
failing attempt at t = 60 ms ends the burst. -/
theorem sendDownTrackBindingReports_burst_witness :
    sendDownTrackBindingReports true true (fun j => j == 3) =
      (List.range' 0 3).map (fun j => (20 * j, true)) ++ [(20 * 3, false)] :=
  (sendDownTrackBindingReports_burst (fun j => j == 3)).2.2.2 3 (by omega)
    (by rfl) (fun j hj => by simp; omega)

end LiveKit
